import Mathlib

/-!
Verification development for a minimal container launcher (single Rust source
file `src/main.rs`).  The pipeline is: registry auth, manifest resolution,
sequential layer fetch/unpack, root assembly, confinement, child execution and
output relay.  Rust strings are embedded as lists of characters, byte buffers
as lists of naturals, filesystems as partial maps from paths to contents, and
every external effect (network, temp dir, spawn, chroot, unshare) as an
explicit oracle argument.  Rust panics (unwrap, expect, out-of-bounds index)
are distinguished from returned errors by the three-valued `Outcome` type.
-/

/-- Embedding of Rust string slices: a string is its list of characters. -/
abbrev Str := List Char

/-- Embedding of Rust byte buffers (child process output streams). -/
abbrev Bytes := List Nat

/-- Result of running a fallible Rust fragment: `ok` for a normal value,
`err` for a returned `anyhow` error (the `?` path), `panicked` for a Rust
panic (`unwrap`, `expect`, out-of-bounds indexing). -/
inductive Outcome (α : Type) where
  | ok (val : α)
  | err
  | panicked
deriving DecidableEq, Repr

/-- Whether an outcome is a normal value. -/
def Outcome.isOk {α : Type} : Outcome α → Bool
  | .ok _ => true
  | _ => false

/-- Extract the normal value of an outcome, with a fallback. -/
def Outcome.getOk {α : Type} (fallback : α) : Outcome α → α
  | .ok v => v
  | _ => fallback

/-- Embedding of `serde_json::Value`. -/
inductive Json where
  | null
  | jbool (b : Bool)
  | jnum (n : Int)
  | jstr (s : Str)
  | jarr (elems : List Json)
  | jobj (fields : List (Str × Json))

/-- Embedding of `serde_json::Value` indexing by a string key: returns the
field's value on an object that has the key, and `Null` otherwise (matching
`Value::index`, which never panics for string keys). -/
def Json.index : Json → Str → Json
  | .jobj fields, k =>
    match fields.find? (fun f => f.1 == k) with
    | some f => f.2
    | none => .null
  | _, _ => .null

/-- Embedding of `Value::as_str`. -/
def Json.as_str : Json → Option Str
  | .jstr s => some s
  | _ => none

/-- Embedding of `Value::as_array`. -/
def Json.as_array : Json → Option (List Json)
  | .jarr xs => some xs
  | _ => none

/-- The JSON key of the auth token field. -/
def tokenKey : Str := "token".toList

/-- The JSON key of the manifest layer array. -/
def layersKey : Str := "layers".toList

/-- The JSON key of a layer's digest field. -/
def digestKey : Str := "digest".toList

/-!
Registry Auth Client (`get_auth_token`, main.rs lines 82-92).

The network is an oracle `net : Option (Option Str)`: `none` means the
blocking GET itself failed (the `?`-propagated `context` error), `some none`
means `.text()` failed (the source calls `.unwrap()` on it, a panic), and
`some (some raw)` delivers the body text.  JSON parsing is the oracle
`parse`, standing for `serde_json::from_str` with `none` for a parse error.
-/

/-- Embedding of `get_auth_token`: request the token endpoint, parse the body
as JSON, and extract the `token` field with `as_str().unwrap()` (a panic when
the field is absent or not a string). -/
def get_auth_token (net : Option (Option Str)) (parse : Str → Option Json) :
    Outcome Str :=
  match net with
  | none => .err
  | some none => .panicked
  | some (some raw) =>
    match parse raw with
    | none => .err
    | some v =>
      match (v.index tokenKey).as_str with
      | none => .panicked
      | some t => .ok t

/-!
Manifest Resolver (`fetch_image_manifest`, main.rs lines 97-131).
-/

/-- Embedding of the digest-extraction loop: `layers_arr.iter().map(|l|
l["digest"].as_str().unwrap())`.  A `none` result stands for the panic taken
when some element has no `digest` string field. -/
def extractDigests : List Json → Option (List Str)
  | [] => some []
  | l :: ls =>
    match (l.index digestKey).as_str with
    | none => none
    | some d => (extractDigests ls).map (d :: ·)

/-- Embedding of `fetch_image_manifest`: request the manifest endpoint, parse
the body as JSON, take `parsed["layers"].as_array().expect(..)` (a panic when
there is no `layers` array), and map each element through
`l["digest"].as_str().unwrap()`. -/
def fetch_image_manifest (net : Option (Option Str))
    (parse : Str → Option Json) : Outcome (List Str) :=
  match net with
  | none => .err
  | some none => .panicked
  | some (some raw) =>
    match parse raw with
    | none => .err
    | some v =>
      match (v.index layersKey).as_array with
      | none => .panicked
      | some arr =>
        match extractDigests arr with
        | none => .panicked
        | some ds => .ok ds

/-- The JSON shape the source supports: an object with a `layers` array whose
elements carry a `digest` string field. -/
def layersManifest (ds : List Str) : Json :=
  .jobj [(layersKey, .jarr (ds.map fun d => .jobj [(digestKey, .jstr d)]))]

/-- The older registry shape named by the spec: an `fsLayers` array of
objects with a `blobSum` field.  The source never looks at these keys. -/
def fsLayersManifest : Json :=
  .jobj [("fsLayers".toList,
          .jarr [.jobj [("blobSum".toList, .jstr "sha256:a".toList)]])]

/-- A parse oracle whose every body parses to `fsLayersManifest`. -/
def fsLayersParse : Str → Option Json := fun _ => some fsLayersManifest

/-!
Layer Fetcher/Unpacker (`fetch_image_layers`, main.rs lines 136-166).

Filesystems are partial maps from paths to file contents; a tar archive is
its ordered list of (path, contents) entries, and unpacking writes them in
order, later entries overwriting earlier ones.  The oracle `blob` maps a
layer digest to its decompressed archive entries; `none` stands for any
failure of the blob request, body read, gunzip or unpack (all of which the
source propagates as returned errors).
-/

/-- Embedding of a filesystem: a partial map from paths to file contents. -/
abbrev FS := Str → Option Str

/-- The empty filesystem (a fresh temporary directory). -/
def emptyFS : FS := fun _ => none

/-- Write one file, overwriting any previous content at the path. -/
def writeFile (fs : FS) (p v : Str) : FS :=
  fun q => if q = p then some v else fs q

/-- Unpack an archive's entries into a filesystem, in order: later entries
overwrite earlier ones at the same path. -/
def unpackEntries : List (Str × Str) → FS → FS
  | [], fs => fs
  | e :: es, fs => unpackEntries es (writeFile fs e.1 e.2)

/-- Content the archive assigns to a path: the last entry for it, if any. -/
def lookupLast : List (Str × Str) → Str → Option Str
  | [], _ => none
  | e :: es, p =>
    match lookupLast es p with
    | some v => some v
    | none => if p = e.1 then some e.2 else none

/-- Events of the fetch loop, in the order the source performs them. -/
inductive Ev where
  | fetch (digest : Str)
  | unpack (digest : Str)
deriving DecidableEq, Repr

/-- The event trace of a fully sequential run: fetch then unpack each layer,
in list order. -/
def eventsOf : List Str → List Ev
  | [] => []
  | l :: ls => .fetch l :: .unpack l :: eventsOf ls

/-- Embedding of `fetch_image_layers`: iterate over the digests in order; for
each, fetch the blob and unpack it into the destination before touching the
next digest.  Returns the event trace together with the final filesystem
(`none` when some step failed, aborting the loop). -/
def fetch_image_layers (blob : Str → Option (List (Str × Str))) :
    List Str → FS → List Ev × Option FS
  | [], fs => ([], some fs)
  | l :: ls, fs =>
    match blob l with
    | none => ([.fetch l], none)
    | some entries =>
      let rest := fetch_image_layers blob ls (unpackEntries entries fs)
      (.fetch l :: .unpack l :: rest.1, rest.2)

/-!
Image reference parsing (main.rs lines 15-21): split the image token on the
colon character; the name is the first part, the tag is the second part when
present and `latest` otherwise.
-/

/-- Embedding of Rust `str::split` for a single character separator. -/
def splitOnChar (c : Char) : List Char → List (List Char)
  | [] => [[]]
  | x :: xs =>
    if x = c then [] :: splitOnChar c xs
    else
      match splitOnChar c xs with
      | [] => [[x]]
      | h :: t => (x :: h) :: t

/-- Embedding of the image-token parsing in `main`: `image.split(':')`, name
from the first part, tag from the second part when there are at least two
parts and `latest` otherwise.  (`split` never yields an empty list, so the
first arm is unreachable.) -/
def parse_image (image : Str) : Str × Str :=
  match splitOnChar ':' image with
  | [] => ([], "latest".toList)
  | [name] => (name, "latest".toList)
  | name :: tag :: _ => (name, tag)

/-!
Filesystem Root Assembler (main.rs lines 30-38): compute the chroot target
path from the command, create the directory chain, copy the host executable.
-/

/-- Embedding of `command.strip_prefix('/').unwrap_or(command)`: drop exactly
one leading slash when present, otherwise keep the path as is. -/
def stripLeadingSlash : Str → Str
  | [] => []
  | x :: xs => if x = '/' then xs else x :: xs

/-- Embedding of `Path::join`: a path whose first character is the separator
is absolute and replaces the base entirely; otherwise it is appended after a
separator. -/
def pathJoin (base p : Str) : Str :=
  if p.head? = some '/' then p else base ++ '/' :: p

/-- Modelled from the spec: the location the specification says the copied
executable ends up at, namely the stripped command path taken relative to
the destination.  This is the comparison point for the refinement claim; the
source's own target computation is `pathJoin`. -/
def claimedTarget (dest cmd : Str) : Str :=
  dest ++ '/' :: stripLeadingSlash cmd

/-- Embedding of the root-assembly fragment of `main`: compute the target as
`tmp_dir.path().join(command.strip_prefix('/').unwrap_or(command))`; call
`.parent().unwrap()` on it (a panic when the target is the bare root, the
only joined path with no parent); run `create_dir_all` (its failure is the
oracle `mkDirsOk`); copy the host file at `cmdPath` to the target (failure
when the host has no readable file there).  Directories are implicit in the
file map, so only the copied file changes the filesystem. -/
def prepare_root (mkDirsOk : Bool) (hostFS : FS) (dest cmdPath : Str)
    (fs : FS) : Outcome FS :=
  let target := pathJoin dest (stripLeadingSlash cmdPath)
  if target = "/".toList then .panicked
  else if mkDirsOk = false then .err
  else
    match hostFS cmdPath with
    | none => .err
    | some content => .ok (writeFile fs target content)

/-!
Output relay (main.rs lines 52-73): capture the child's output, convert each
stream with `std::str::from_utf8(..)?` (stdout first, printed immediately,
then stderr), and exit with `output.status.code().unwrap_or_default()`.
-/

/-- A UTF-8 continuation byte. -/
def contByte (b : Nat) : Bool := 0x80 ≤ b && b ≤ 0xBF

/-- Embedding of the validity check of `std::str::from_utf8`: standard UTF-8,
rejecting overlong encodings, surrogates and code points above U+10FFFF. -/
def validUtf8 : Bytes → Bool
  | [] => true
  | b :: rest =>
    if b ≤ 0x7F then validUtf8 rest
    else if 0xC2 ≤ b && b ≤ 0xDF then
      match rest with
      | b1 :: rest2 => contByte b1 && validUtf8 rest2
      | [] => false
    else if b = 0xE0 then
      match rest with
      | b1 :: b2 :: rest2 =>
        (0xA0 ≤ b1 && b1 ≤ 0xBF) && contByte b2 && validUtf8 rest2
      | _ => false
    else if (0xE1 ≤ b && b ≤ 0xEC) || b = 0xEE || b = 0xEF then
      match rest with
      | b1 :: b2 :: rest2 => contByte b1 && contByte b2 && validUtf8 rest2
      | _ => false
    else if b = 0xED then
      match rest with
      | b1 :: b2 :: rest2 =>
        (0x80 ≤ b1 && b1 ≤ 0x9F) && contByte b2 && validUtf8 rest2
      | _ => false
    else if b = 0xF0 then
      match rest with
      | b1 :: b2 :: b3 :: rest2 =>
        (0x90 ≤ b1 && b1 ≤ 0xBF) && contByte b2 && contByte b3 &&
          validUtf8 rest2
      | _ => false
    else if 0xF1 ≤ b && b ≤ 0xF3 then
      match rest with
      | b1 :: b2 :: b3 :: rest2 =>
        contByte b1 && contByte b2 && contByte b3 && validUtf8 rest2
      | _ => false
    else if b = 0xF4 then
      match rest with
      | b1 :: b2 :: b3 :: rest2 =>
        (0x80 ≤ b1 && b1 ≤ 0x8F) && contByte b2 && contByte b3 &&
          validUtf8 rest2
      | _ => false
    else false

/-- Embedding of `std::process::Output`: exit status code (when the child
exited normally) and the two captured streams. -/
structure ChildOutput where
  status : Option Int
  stdout : Bytes
  stderr : Bytes
deriving DecidableEq, Repr

/-- What the relay fragment produced: the bytes actually written to the
parent's stdout and stderr, and `some code` when the parent reached
`std::process::exit` (with `none` when it instead returned an error). -/
structure RelayResult where
  printedOut : Bytes
  printedErr : Bytes
  exitCode : Option Int
deriving DecidableEq, Repr

/-- Embedding of main.rs lines 68-73: compute the status code with
`unwrap_or_default`, convert stdout with `from_utf8?` and print it, then
convert stderr with `from_utf8?` and print it, then exit.  A failed stdout
conversion returns an error before anything is printed; a failed stderr
conversion returns an error after stdout has already been printed. -/
def relayAndExit (o : ChildOutput) : RelayResult :=
  let statusCode := o.status.getD 0
  if validUtf8 o.stdout then
    if validUtf8 o.stderr then ⟨o.stdout, o.stderr, some statusCode⟩
    else ⟨o.stdout, [], none⟩
  else ⟨[], [], none⟩

/-!
The whole of `main` (main.rs lines 12-74), with every external effect an
oracle field.  The argument vector is indexed exactly where the source
indexes it (`args[2]` before any network traffic, `args[3]` only after the
layers have been fetched), out-of-bounds indexing being a panic.
-/

/-- How the parent process ends: `exit` through `std::process::exit` with the
child's code, `errored` for a returned `anyhow` error from `main`, or
`panicked`. -/
inductive Finish where
  | exit (code : Int)
  | errored
  | panicked
deriving DecidableEq, Repr

/-- Observable result of one invocation: bytes relayed to the parent's
stdout and stderr, and how the process ended. -/
structure MainResult where
  out : Bytes
  err : Bytes
  fin : Finish
deriving DecidableEq, Repr

/-- Oracles for every external effect `main` performs, keyed by the request
data the source puts in each call. -/
structure Oracles where
  authNet : Str → Option (Option Str)
  authParse : Str → Option Json
  manifNet : Str → Str → Option (Option Str)
  manifParse : Str → Option Json
  tmpdirOk : Bool
  tmpPath : Str
  blob : Str → Str → Option (List (Str × Str))
  mkDirsOk : Bool
  hostFS : Str → Option Str
  devDirOk : Bool
  devNullOk : Bool
  chrootOk : Bool
  unshareOk : Bool
  spawn : Str → List Str → Option ChildOutput

/-- Embedding of `main`: index `args[2]`, parse the image reference, obtain
the token, resolve the manifest, create the temp dir, fetch the layers,
index `args[3]`, assemble the root, best-effort create the device directory
and null placeholder (results discarded, as in the source's two
discarded-result statements), chroot, best-effort unshare (return value
ignored), spawn the command with `args[4..]`, and relay its output. -/
def mainModel (o : Oracles) (args : List Str) : MainResult :=
  match args.get? 2 with
  | none => ⟨[], [], .panicked⟩
  | some image =>
    let np := parse_image image
    match get_auth_token (o.authNet np.1) o.authParse with
    | .err => ⟨[], [], .errored⟩
    | .panicked => ⟨[], [], .panicked⟩
    | .ok _tok =>
      match fetch_image_manifest (o.manifNet np.1 np.2) o.manifParse with
      | .err => ⟨[], [], .errored⟩
      | .panicked => ⟨[], [], .panicked⟩
      | .ok layers =>
        if o.tmpdirOk = false then ⟨[], [], .errored⟩
        else
          match (fetch_image_layers (o.blob np.1) layers emptyFS).2 with
          | none => ⟨[], [], .errored⟩
          | some rootfs =>
            match args.get? 3 with
            | none => ⟨[], [], .panicked⟩
            | some command =>
              match prepare_root o.mkDirsOk o.hostFS o.tmpPath command
                  rootfs with
              | .err => ⟨[], [], .errored⟩
              | .panicked => ⟨[], [], .panicked⟩
              | .ok fsRoot =>
                let _ := o.devDirOk
                let _fsDev :=
                  if o.devNullOk then
                    writeFile fsRoot (pathJoin o.tmpPath "dev/null".toList) []
                  else fsRoot
                if o.chrootOk = false then ⟨[], [], .errored⟩
                else
                  let _ := o.unshareOk
                  match o.spawn command (args.drop 4) with
                  | none => ⟨[], [], .errored⟩
                  | some childOut =>
                    let r := relayAndExit childOut
                    ⟨r.printedOut, r.printedErr,
                      match r.exitCode with
                      | some c => .exit c
                      | none => .errored⟩

/-!
Lemmas about the layer loop.
-/

/-- Unpacking reads back as the archive's last write for a path, and leaves
every other path of the filesystem unchanged. -/
theorem unpackEntries_lookupLast (es : List (Str × Str)) : ∀ (fs : FS) (p : Str),
    unpackEntries es fs p =
      match lookupLast es p with
      | some v => some v
      | none => fs p := by
  induction es with
  | nil => intro fs p; rfl
  | cons e es ih =>
    intro fs p
    show unpackEntries es (writeFile fs e.1 e.2) p = _
    rw [ih]
    cases h : lookupLast es p with
    | some v => simp [lookupLast, h]
    | none =>
      simp only [lookupLast, h]
      by_cases hp : p = e.1
      · simp [writeFile, hp]
      · simp [writeFile, hp]

/-- A successful run of the layer loop produces exactly the in-order
fetch-then-unpack event trace. -/
theorem fetch_layers_trace (blob : Str → Option (List (Str × Str))) :
    ∀ (layers : List Str) (fs fs2 : FS),
      (fetch_image_layers blob layers fs).2 = some fs2 →
      (fetch_image_layers blob layers fs).1 = eventsOf layers := by
  intro layers
  induction layers with
  | nil => intro fs fs2 _; rfl
  | cons l ls ih =>
    intro fs fs2 hok
    cases hb : blob l with
    | none =>
      simp only [fetch_image_layers, hb] at hok
      exact Option.noConfusion hok
    | some entries =>
      simp only [fetch_image_layers, hb] at hok ⊢
      rw [eventsOf, ih _ fs2 hok]

/-- A successful run over layers none of which write to `p` leaves the
content at `p` unchanged. -/
theorem fetch_layers_untouched (blob : Str → Option (List (Str × Str)))
    (p : Str) :
    ∀ (layers : List Str) (fs fs2 : FS),
      (∀ l ∈ layers, ∀ es, blob l = some es → lookupLast es p = none) →
      (fetch_image_layers blob layers fs).2 = some fs2 →
      fs2 p = fs p := by
  intro layers
  induction layers with
  | nil =>
    intro fs fs2 _ hok
    simp only [fetch_image_layers, Option.some.injEq] at hok
    rw [← hok]
  | cons l ls ih =>
    intro fs fs2 hnone hok
    cases hb : blob l with
    | none =>
      simp only [fetch_image_layers, hb] at hok
      exact Option.noConfusion hok
    | some es =>
      simp only [fetch_image_layers, hb] at hok
      have h2 := ih (unpackEntries es fs) fs2
        (fun l2 hl2 => hnone l2 (List.mem_cons_of_mem _ hl2)) hok
      rw [h2, unpackEntries_lookupLast, hnone l (List.mem_cons_self l ls) es hb]

/-- After a successful run, a path written by some layer and untouched by all
later layers holds that layer's last write for it. -/
theorem fetch_layers_last_write (blob : Str → Option (List (Str × Str)))
    (p : Str) :
    ∀ (pre : List Str) (l : Str) (post : List Str) (fs fs2 : FS)
      (es : List (Str × Str)) (v : Str),
      (fetch_image_layers blob (pre ++ l :: post) fs).2 = some fs2 →
      blob l = some es →
      lookupLast es p = some v →
      (∀ l2 ∈ post, ∀ es2, blob l2 = some es2 → lookupLast es2 p = none) →
      fs2 p = some v := by
  intro pre
  induction pre with
  | nil =>
    intro l post fs fs2 es v hok hb hl hpost
    simp only [List.nil_append, fetch_image_layers, hb] at hok
    have h2 := fetch_layers_untouched blob p post (unpackEntries es fs) fs2
      hpost hok
    rw [h2, unpackEntries_lookupLast, hl]
  | cons a pre ih =>
    intro l post fs fs2 es v hok hb hl hpost
    cases hba : blob a with
    | none =>
      simp only [List.cons_append, fetch_image_layers, hba] at hok
      exact Option.noConfusion hok
    | some esa =>
      simp only [List.cons_append, fetch_image_layers, hba] at hok
      exact ih l post (unpackEntries esa fs) fs2 es v hok hb hl hpost

/-- Claim C1: layer application is order-preserving and strictly sequential:
a successful run of `fetch_image_layers` performs exactly the events
fetch L1, unpack L1, fetch L2, unpack L2, ... in manifest order (each layer
completing before the next begins), and on a path collision the content of
the latest layer writing the path wins. -/
theorem fetch_image_layers_sequential (blob : Str → Option (List (Str × Str)))
    (layers : List Str) (fs0 fs2 : FS)
    (hok : (fetch_image_layers blob layers fs0).2 = some fs2) :
    (fetch_image_layers blob layers fs0).1 = eventsOf layers
    ∧ ∀ pre l post es p v,
        layers = pre ++ l :: post →
        blob l = some es →
        lookupLast es p = some v →
        (∀ l2 ∈ post, ∀ es2, blob l2 = some es2 → lookupLast es2 p = none) →
        fs2 p = some v := by
  constructor
  · exact fetch_layers_trace blob layers fs0 fs2 hok
  · intro pre l post es p v hsplit hb hl hpost
    subst hsplit
    exact fetch_layers_last_write blob p pre l post fs0 fs2 es v hok hb hl hpost

/-- Three concrete layers: L1 and L3 collide on the path `etc/cfg`. -/
def blobW : Str → Option (List (Str × Str)) := fun d =>
  if d = "L1".toList then some [("etc/cfg".toList, "v1".toList)]
  else if d = "L2".toList then some [("bin/tool".toList, "t".toList)]
  else if d = "L3".toList then some [("etc/cfg".toList, "v3".toList)]
  else none

/-- The manifest order for the collision example. -/
def layersW : List Str := ["L1".toList, "L2".toList, "L3".toList]

/-- The filesystem produced by the collision example. -/
def fsW : FS := (fetch_image_layers blobW layersW emptyFS).2.getD emptyFS

theorem fetch_image_layers_sequential_witness :
    (fetch_image_layers blobW layersW emptyFS).1 = eventsOf layersW
    ∧ fsW "etc/cfg".toList = some "v3".toList := by
  have hok : (fetch_image_layers blobW layersW emptyFS).2 = some fsW := rfl
  have h := fetch_image_layers_sequential blobW layersW emptyFS fsW hok
  refine ⟨h.1, ?_⟩
  exact h.2 ["L1".toList, "L2".toList] "L3".toList []
    [("etc/cfg".toList, "v3".toList)] "etc/cfg".toList "v3".toList
    (by decide) (by decide) (by decide) (by simp)

/-!
Lemmas about colon splitting, for the image reference parser.
-/

/-- Splitting a separator-free string yields that string alone. -/
theorem splitOnChar_no_sep (c : Char) : ∀ (s : List Char), c ∉ s →
    splitOnChar c s = [s] := by
  intro s
  induction s with
  | nil => intro _; rfl
  | cons x xs ih =>
    intro h
    have hx : ¬ x = c := fun he => h (by rw [← he]; exact List.mem_cons_self x xs)
    have hxs : c ∉ xs := fun hm => h (List.mem_cons_of_mem x hm)
    simp only [splitOnChar, if_neg hx, ih hxs]

/-- Splitting at the first separator peels off the separator-free head. -/
theorem splitOnChar_sep (c : Char) : ∀ (name rest : List Char), c ∉ name →
    splitOnChar c (name ++ c :: rest) = name :: splitOnChar c rest := by
  intro name
  induction name with
  | nil => intro rest _; simp [splitOnChar]
  | cons x xs ih =>
    intro rest h
    have hx : ¬ x = c := fun he => h (by rw [← he]; exact List.mem_cons_self x xs)
    have hxs : c ∉ xs := fun hm => h (List.mem_cons_of_mem x hm)
    simp only [List.cons_append, splitOnChar, if_neg hx, List.append_eq,
      ih rest hxs]

/-- Claim C7: parsing a colon-free name followed by a colon and a colon-free
tag yields that name and tag, and parsing a colon-free token yields the token
with the default tag `latest`. -/
theorem parse_image_spec :
    (∀ name tag : Str, ':' ∉ name → ':' ∉ tag →
       parse_image (name ++ ':' :: tag) = (name, tag))
    ∧ ∀ s : Str, ':' ∉ s → parse_image s = (s, "latest".toList) := by
  constructor
  · intro name tag hn ht
    simp only [parse_image, splitOnChar_sep ':' name tag hn,
      splitOnChar_no_sep ':' tag ht]
  · intro s hs
    simp only [parse_image, splitOnChar_no_sep ':' s hs]

theorem parse_image_spec_witness :
    (':' ∉ "alpine".toList ∧ ':' ∉ "3.19".toList
      ∧ parse_image ("alpine".toList ++ ':' :: "3.19".toList) =
          ("alpine".toList, "3.19".toList))
    ∧ (':' ∉ "busybox".toList
      ∧ parse_image "busybox".toList = ("busybox".toList, "latest".toList)) :=
  ⟨⟨by decide, by decide, parse_image_spec.1 _ _ (by decide) (by decide)⟩,
   ⟨by decide, parse_image_spec.2 _ (by decide)⟩⟩

/-!
Relay claims: behavior of main.rs lines 68-73 over arbitrary byte streams.
-/

/-- Claim C2 (amended): when both captured streams are valid UTF-8, the
parent relays the child's stdout and stderr verbatim and exits with the
child's status code, defaulting to 0 when the child had no status code. -/
theorem relay_on_valid_utf8 (o : ChildOutput)
    (hout : validUtf8 o.stdout = true) (herr : validUtf8 o.stderr = true) :
    relayAndExit o = ⟨o.stdout, o.stderr, some (o.status.getD 0)⟩ := by
  simp [relayAndExit, hout, herr]

/-- The bytes of the ASCII string `out`. -/
def outBytesW : Bytes := "out".toList.map Char.toNat

/-- The bytes of the ASCII string `err`. -/
def errBytesW : Bytes := "err".toList.map Char.toNat

theorem relay_on_valid_utf8_witness :
    validUtf8 outBytesW = true ∧ validUtf8 errBytesW = true
    ∧ relayAndExit ⟨some 7, outBytesW, errBytesW⟩ =
        ⟨outBytesW, errBytesW, some 7⟩ :=
  ⟨by decide, by decide,
   relay_on_valid_utf8 ⟨some 7, outBytesW, errBytesW⟩ (by decide) (by decide)⟩

/-- Counterexample to claim C2 as stated: a successfully spawned child that
exits with status 7 but emits the non-UTF-8 byte 255 on stdout has nothing
relayed and the parent does not exit with status 7 (it returns an error). -/
theorem relay_invalid_stdout_cex :
    (relayAndExit ⟨some 7, [255], []⟩).printedOut = []
    ∧ (relayAndExit ⟨some 7, [255], []⟩).exitCode = none := by
  constructor <;> decide

/-- Claim C9 (amended): if stdout is invalid UTF-8 nothing is relayed and no
exit status is propagated; if stdout is valid but stderr is invalid, stdout
alone is relayed and then the parent errors; the full relay with status
propagation happens exactly when both streams are valid UTF-8. -/
theorem relay_utf8_partiality (o : ChildOutput) :
    (validUtf8 o.stdout = false → relayAndExit o = ⟨[], [], none⟩)
    ∧ (validUtf8 o.stdout = true → validUtf8 o.stderr = false →
        relayAndExit o = ⟨o.stdout, [], none⟩)
    ∧ (validUtf8 o.stdout = true → validUtf8 o.stderr = true →
        relayAndExit o = ⟨o.stdout, o.stderr, some (o.status.getD 0)⟩) := by
  refine ⟨fun h1 => ?_, fun h1 h2 => ?_, fun h1 h2 => ?_⟩
  · simp [relayAndExit, h1]
  · simp [relayAndExit, h1, h2]
  · simp [relayAndExit, h1, h2]

theorem relay_utf8_partiality_witness :
    validUtf8 [255] = false
    ∧ relayAndExit ⟨some 3, [255], []⟩ = ⟨[], [], none⟩ :=
  ⟨by decide, (relay_utf8_partiality ⟨some 3, [255], []⟩).1 (by decide)⟩

/-- Counterexample to claim C9 as stated: with a valid-UTF-8 stdout and an
invalid stderr, the parent does relay the stdout stream (the claim says it
aborts without relaying either stream), although it then errors without
propagating the status. -/
theorem relay_stderr_invalid_cex :
    (relayAndExit ⟨some 7, outBytesW, [255]⟩).printedOut = outBytesW
    ∧ outBytesW ≠ []
    ∧ (relayAndExit ⟨some 7, outBytesW, [255]⟩).exitCode = none := by
  refine ⟨by decide, by decide, by decide⟩

/-!
Auth and manifest error-classification claims.
-/

/-- Claim C4 (amended): `get_auth_token` returns an error exactly when the
network request fails or the body is not valid JSON; a missing or
non-string token field (and a failing body-text read) makes it panic, which
is not a returned error. -/
theorem get_auth_token_error_classes (net : Option (Option Str))
    (parse : Str → Option Json) :
    (get_auth_token net parse = .err ↔
      net = none ∨ ∃ raw, net = some (some raw) ∧ parse raw = none)
    ∧ (get_auth_token net parse = .panicked ↔
      net = some none ∨ ∃ raw v, net = some (some raw) ∧ parse raw = some v
        ∧ (v.index tokenKey).as_str = none) := by
  match net with
  | none => simp [get_auth_token]
  | some none => simp [get_auth_token]
  | some (some raw) =>
    match hp : parse raw with
    | none => simp [get_auth_token, hp]
    | some v =>
      match ht : (v.index tokenKey).as_str with
      | none => simp [get_auth_token, hp, ht]
      | some t => simp [get_auth_token, hp, ht]

/-- A parse oracle whose every body parses to the empty JSON object. -/
def emptyObjParse : Str → Option Json := fun _ => some (.jobj [])

/-- Counterexample to claim C4 as stated: a valid JSON body with no token
field makes `get_auth_token` panic (an unwrap on `None`), which is not a
returned error result. -/
theorem get_auth_token_missing_token_cex :
    get_auth_token (some (some "x".toList)) emptyObjParse = .panicked
    ∧ get_auth_token (some (some "x".toList)) emptyObjParse ≠ .err := by
  constructor <;> decide

/-- Claim C5 (amended): `fetch_image_manifest` returns an error exactly when
the request fails or the body is not valid JSON; a parsed body with no
`layers` array makes it panic rather than return an error; a present but
empty layer list is not an error and yields the empty ordered list. -/
theorem fetch_image_manifest_error_classes (net : Option (Option Str))
    (parse : Str → Option Json) :
    (fetch_image_manifest net parse = .err ↔
      net = none ∨ ∃ raw, net = some (some raw) ∧ parse raw = none)
    ∧ (∀ raw v, net = some (some raw) → parse raw = some v →
        (v.index layersKey).as_array = none →
        fetch_image_manifest net parse = .panicked)
    ∧ (∀ raw, net = some (some raw) → parse raw = some (layersManifest []) →
        fetch_image_manifest net parse = .ok []) := by
  refine ⟨?_, ?_, ?_⟩
  · match net with
    | none => simp [fetch_image_manifest]
    | some none => simp [fetch_image_manifest]
    | some (some raw) =>
      match hp : parse raw with
      | none => simp [fetch_image_manifest, hp]
      | some v =>
        match ha : (v.index layersKey).as_array with
        | none => simp [fetch_image_manifest, hp, ha]
        | some arr =>
          match hd : extractDigests arr with
          | none => simp [fetch_image_manifest, hp, ha, hd]
          | some ds => simp [fetch_image_manifest, hp, ha, hd]
  · intro raw v hnet hp ha
    subst hnet
    simp [fetch_image_manifest, hp, ha]
  · intro raw hnet hp
    subst hnet
    simp only [fetch_image_manifest, hp]
    decide

/-- A parse oracle whose every body parses to a manifest with an empty
`layers` array. -/
def emptyLayersParse : Str → Option Json := fun _ => some (layersManifest [])

theorem fetch_image_manifest_error_classes_witness :
    emptyObjParse "m".toList = some (.jobj [])
    ∧ ((Json.jobj []).index layersKey).as_array = none
    ∧ fetch_image_manifest (some (some "m".toList)) emptyObjParse = .panicked
    ∧ fetch_image_manifest (some (some "m".toList)) emptyLayersParse = .ok [] :=
  ⟨rfl, rfl,
   (fetch_image_manifest_error_classes (some (some "m".toList))
      emptyObjParse).2.1 "m".toList (.jobj []) rfl rfl rfl,
   (fetch_image_manifest_error_classes (some (some "m".toList))
      emptyLayersParse).2.2 "m".toList rfl rfl⟩

/-- Counterexample to claim C5 as stated: a valid JSON body with no layer
list makes `fetch_image_manifest` panic (the expect call), which is not a
returned error. -/
theorem fetch_image_manifest_missing_layers_cex :
    fetch_image_manifest (some (some "x".toList)) emptyObjParse = .panicked
    ∧ fetch_image_manifest (some (some "x".toList)) emptyObjParse ≠ .err := by
  constructor <;> decide

/-- Looking up the key of the head field of a JSON object. -/
theorem Json.index_head (k : Str) (v : Json) (rest : List (Str × Json)) :
    (Json.jobj ((k, v) :: rest)).index k = v := by
  simp [Json.index, List.find?]

/-- Extracting digests from a list of well-formed digest objects returns the
digests in order. -/
theorem extractDigests_digestObjs (ds : List Str) :
    extractDigests (ds.map fun d => Json.jobj [(digestKey, .jstr d)]) =
      some ds := by
  induction ds with
  | nil => rfl
  | cons d ds ih =>
    simp [extractDigests, Json.index_head, Json.as_str, ih]

/-- Claim C3 (amended): the resolver supports only the `layers` array shape,
whose `digest` fields it returns in order; a manifest in the older
`fsLayers` with `blobSum` shape has no `layers` array, so the resolver
panics instead of resolving its identifiers. -/
theorem manifest_layer_shapes :
    (∀ (ds : List Str) (raw : Str) (parse : Str → Option Json),
        parse raw = some (layersManifest ds) →
        fetch_image_manifest (some (some raw)) parse = .ok ds)
    ∧ ∀ raw : Str,
        fetch_image_manifest (some (some raw)) fsLayersParse = .panicked := by
  constructor
  · intro ds raw parse hp
    simp only [fetch_image_manifest, hp, layersManifest, Json.index_head,
      Json.as_array, extractDigests_digestObjs ds]
  · intro raw
    rfl

/-- A parse oracle delivering a two-layer manifest in the supported shape. -/
def twoLayersParse : Str → Option Json :=
  fun _ => some (layersManifest ["sha256:x".toList, "sha256:y".toList])

theorem manifest_layer_shapes_witness :
    twoLayersParse "m".toList =
      some (layersManifest ["sha256:x".toList, "sha256:y".toList])
    ∧ fetch_image_manifest (some (some "m".toList)) twoLayersParse =
        .ok ["sha256:x".toList, "sha256:y".toList] :=
  ⟨rfl, manifest_layer_shapes.1 _ "m".toList twoLayersParse rfl⟩

/-- Counterexample to claim C3 as stated: on an `fsLayers` with `blobSum`
manifest body the resolver does not return the ordered identifier list; it
panics on the missing `layers` array. -/
theorem manifest_fsLayers_cex :
    fetch_image_manifest (some (some "m".toList)) fsLayersParse = .panicked
    ∧ fetch_image_manifest (some (some "m".toList)) fsLayersParse ≠
        .ok ["sha256:a".toList] := by
  constructor <;> decide

/-!
Root assembly claims.
-/

/-- Claim C6 (amended): for a readable host executable whose command path
has at most one leading separator (so the stripped path is not itself
absolute) and a nonempty destination, root assembly succeeds and places the
host content at exactly the stripped relative path inside the destination,
leaving every other path unchanged (`writeFile` changes only its target). -/
theorem prepare_root_relative_target (mkDirsOk : Bool) (hostFS : FS)
    (dest cmd : Str) (fs : FS) (content : Str)
    (hread : hostFS cmd = some content)
    (hmk : mkDirsOk = true)
    (hdest : dest ≠ [])
    (hrel : (stripLeadingSlash cmd).head? ≠ some '/') :
    prepare_root mkDirsOk hostFS dest cmd fs =
      .ok (writeFile fs (claimedTarget dest cmd) content) := by
  have hjoin : pathJoin dest (stripLeadingSlash cmd) = claimedTarget dest cmd := by
    simp [pathJoin, claimedTarget, hrel]
  have hne : claimedTarget dest cmd ≠ "/".toList := by
    intro h
    have hl := congrArg List.length h
    simp only [claimedTarget, List.length_append, List.length_cons] at hl
    have hd0 : dest.length = 0 := by
      have : ("/".toList : Str).length = 1 := by decide
      omega
    exact hdest (List.length_eq_zero.mp hd0)
  simp only [prepare_root, hjoin]
  rw [if_neg hne, hmk]
  simp [hread]

/-- A host filesystem with readable content at every path. -/
def hostAllElf : FS := fun _ => some "elf".toList

theorem prepare_root_relative_target_witness :
    hostAllElf "/bin/sh".toList = some "elf".toList
    ∧ ("/tmp/d".toList : Str) ≠ []
    ∧ (stripLeadingSlash "/bin/sh".toList).head? ≠ some '/'
    ∧ prepare_root true hostAllElf "/tmp/d".toList "/bin/sh".toList emptyFS =
        .ok (writeFile emptyFS
          (claimedTarget "/tmp/d".toList "/bin/sh".toList) "elf".toList) :=
  ⟨rfl, by decide, by decide,
   prepare_root_relative_target true hostAllElf "/tmp/d".toList
     "/bin/sh".toList emptyFS "elf".toList rfl rfl (by decide) (by decide)⟩

/-- A host filesystem whose only file is at the path `//x`. -/
def hostDoubleSlash : FS :=
  fun p => if p = "//x".toList then some "elf".toList else none

/-- The filesystem root assembly produces for the command path `//x`. -/
def cexPreparedFS : FS :=
  (prepare_root true hostDoubleSlash "/tmp/d".toList "//x".toList
    emptyFS).getOk emptyFS

/-- Counterexample to claim C6 as stated: for the command path `//x` (two
leading separators) root assembly succeeds but the destination does not
contain the executable at the stripped relative path; stripping one
separator leaves the absolute path `/x`, which `Path::join` substitutes for
the destination, so the file lands at the host path `/x` instead. -/
theorem prepare_root_absolute_escape_cex :
    (prepare_root true hostDoubleSlash "/tmp/d".toList "//x".toList
        emptyFS).isOk = true
    ∧ cexPreparedFS (claimedTarget "/tmp/d".toList "//x".toList) = none
    ∧ cexPreparedFS "/x".toList = some "elf".toList := by
  refine ⟨by decide, by decide, by decide⟩

/-!
Whole-invocation claims.
-/

/-- Claim C8: the device-directory creation, the null placeholder write and
the process-ID namespace request are best-effort: the observable result of
an invocation is identical for every outcome of those three operations, so
no failure of them is returned or surfaced to the caller. -/
theorem best_effort_ops_do_not_propagate (o : Oracles) (args : List Str)
    (b1 b2 b3 : Bool) :
    mainModel { o with devDirOk := b1, devNullOk := b2, unshareOk := b3 } args
      = mainModel o args := rfl

/-- Claim C10 (amended): with fewer than three arguments main panics at the
`args[2]` access before anything else; with exactly three arguments it
panics at the `args[3]` access only once auth, manifest resolution, temp-dir
creation and layer fetching have all succeeded (a failure of any of those is
returned as a diagnostic error first); and the subcommand token at position
1 is never inspected. -/
theorem main_args_indexing (o : Oracles) :
    (∀ args : List Str, args.length ≤ 2 →
        mainModel o args = ⟨[], [], .panicked⟩)
    ∧ (∀ a0 a1 a2 tok layers rootfs,
        get_auth_token (o.authNet (parse_image a2).1) o.authParse = .ok tok →
        fetch_image_manifest (o.manifNet (parse_image a2).1 (parse_image a2).2)
          o.manifParse = .ok layers →
        o.tmpdirOk = true →
        (fetch_image_layers (o.blob (parse_image a2).1) layers emptyFS).2 =
          some rootfs →
        mainModel o [a0, a1, a2] = ⟨[], [], .panicked⟩)
    ∧ (∀ a0 b b2 rest, mainModel o (a0 :: b :: rest) =
        mainModel o (a0 :: b2 :: rest)) := by
  refine ⟨?_, ?_, ?_⟩
  · intro args h
    cases args with
    | nil => rfl
    | cons a args1 =>
      cases args1 with
      | nil => rfl
      | cons b args2 =>
        cases args2 with
        | nil => rfl
        | cons c rest =>
          simp only [List.length_cons] at h
          omega
  · intro a0 a1 a2 tok layers rootfs hauth hmanif htmp hlayers
    simp only [mainModel, List.get?, hauth, hmanif, htmp, hlayers]
    rfl
  · intro a0 b b2 rest
    rfl

/-- Oracles under which every pipeline step succeeds. -/
def oAllOk : Oracles where
  authNet := fun _ => some (some "b".toList)
  authParse := fun _ => some (.jobj [(tokenKey, .jstr "t".toList)])
  manifNet := fun _ _ => some (some "m".toList)
  manifParse := fun _ => some (layersManifest [])
  tmpdirOk := true
  tmpPath := "/tmp/d".toList
  blob := fun _ _ => some []
  mkDirsOk := true
  hostFS := fun _ => some "elf".toList
  devDirOk := true
  devNullOk := true
  chrootOk := true
  unshareOk := true
  spawn := fun _ _ => some ⟨some 0, [], []⟩

/-- A three-token argument vector: program name, subcommand, image. -/
def argsRunImg : List Str := ["prog".toList, "run".toList, "img".toList]

theorem main_args_indexing_witness :
    get_auth_token (oAllOk.authNet (parse_image "img".toList).1)
      oAllOk.authParse = .ok "t".toList
    ∧ mainModel oAllOk argsRunImg = ⟨[], [], .panicked⟩ :=
  ⟨rfl, (main_args_indexing oAllOk).2.1 "prog".toList "run".toList
    "img".toList "t".toList [] emptyFS rfl rfl rfl rfl⟩

/-- Oracles under which the very first network request fails. -/
def oAuthFail : Oracles := { oAllOk with authNet := fun _ => none }

/-- Counterexample to claim C10 as stated: an invocation with exactly three
arguments (fewer than four) whose auth request fails does not panic; main
returns the diagnostic auth error before ever indexing `args[3]`. -/
theorem main_three_args_auth_failure_cex :
    argsRunImg.length = 3
    ∧ mainModel oAuthFail argsRunImg = ⟨[], [], .errored⟩
    ∧ Finish.errored ≠ Finish.panicked := by
  refine ⟨by decide, by decide, by decide⟩
